import Mathlib

/-!
Shallow embedding of the SVG attribute validator (`validateSVG` in
`src/app/page.tsx`) and proofs about its behaviour.

Strings are modelled as `List Char`.  The browser's `DOMParser` is an
external capability; it is modelled as a parameter
`parse : Str → Except Str XMLDoc` returning either a parse-error text
(the `parsererror` element's `textContent`) or a document, given as the
list of all elements in document order, each paired with its tag name.
-/

abbrev Str := List Char

/-- The seven tracked graphic tag kinds, in the order the source lists them. -/
def graphicTags : List Str :=
  ["path".toList, "polygon".toList, "rect".toList, "circle".toList,
   "ellipse".toList, "line".toList, "polyline".toList]

/-- The three required attributes, in the order the source checks them. -/
def requiredAttrs : List Str :=
  ["data-categoryid".toList, "data-targetviewbox".toList, "data-zoneid".toList]

/-- A parsed element: its attribute map (name/value pairs, document order)
and its serialized markup (`outerHTML`). -/
structure Element where
  attrs : List (Str × Str)
  outerHTML : Str
deriving DecidableEq

/-- DOM `getAttribute`: the value of the first attribute with the given
name, or `none` when absent. -/
def Element.getAttribute (e : Element) (name : Str) : Option Str :=
  (e.attrs.find? (fun p => decide (p.1 = name))).map (fun p => p.2)

/-- A parsed document: all its elements in document order, tagged. -/
structure XMLDoc where
  elems : List (Str × Element)
deriving DecidableEq

/-- DOM `getElementsByTagName`: the elements with the given tag name, in
document order. -/
def XMLDoc.getElementsByTagName (doc : XMLDoc) (tag : Str) : List Element :=
  (doc.elems.filter (fun p => decide (p.1 = tag))).map (fun p => p.2)

/-- The `ValidationError` record of the source (a Finding). -/
structure ValidationError where
  tag : Str
  snippet : Str
  message : Str
  line : Int
deriving DecidableEq

/-- The malformed entity text `&quote` that the validator looks for. -/
def quoteEnt : Str := ['&', 'q', 'u', 'o', 't', 'e']

/-- JS `String.prototype.includes`: substring containment. -/
def strIncludes (pat : Str) : Str → Bool
  | [] => pat.isEmpty
  | c :: rest => pat.isPrefixOf (c :: rest) || strIncludes pat rest

/-- `svg.replace(/&quote/g, '"')`: replace every occurrence of the literal
text `&quote` by a double quote, scanning left to right. -/
def fixQuote (s : Str) : Str :=
  match s with
  | [] => []
  | c :: rest =>
    if quoteEnt.isPrefixOf (c :: rest) then '"' :: fixQuote (rest.drop 5)
    else c :: fixQuote rest
termination_by s.length
decreasing_by
  · simp [List.length_drop]; omega
  · simp

/-- The whitespace code points stripped by JS `String.prototype.trim`. -/
def isJSWhite (c : Char) : Bool :=
  [' ', '\t', '\n', '\r', '\x0B', '\x0C', ' ', ' ', ' ',
   ' ', ' ', ' ', ' ', ' ', ' ', ' ',
   ' ', ' ', ' ', ' ', ' ', ' ', ' ',
   '　', '﻿'].contains c

/-- JS `String.prototype.trim`: strip whitespace from both ends. -/
def jsTrim (s : Str) : Str :=
  ((s.dropWhile isJSWhite).reverse.dropWhile isJSWhite).reverse

/-- JS `svg.split("\n")`. -/
def splitLines : Str → List Str
  | [] => [[]]
  | c :: rest =>
    if c = '\n' then [] :: splitLines rest
    else
      match splitLines rest with
      | [] => [[c]]
      | l :: ls => (c :: l) :: ls

/-- `snippet.split("\n")[0]`: the part of a string before its first newline. -/
def firstLineOf (s : Str) : Str := s.takeWhile (fun c => c != '\n')

/-- JS `Array.prototype.findIndex`: index of the first match, `-1` if none. -/
def jsFindIndex (p : α → Bool) : List α → Int
  | [] => -1
  | a :: rest =>
    if p a then 0
    else
      let r := jsFindIndex p rest
      if r = -1 then -1 else r + 1

/-- `lines.findIndex((line) => line.includes(firstLine)) + 1`: the reported
line number of an element whose snippet's first line is `fl`. -/
def resolveLine (lines : List Str) (fl : Str) : Int :=
  jsFindIndex (fun l => strIncludes fl l) lines + 1

/-- Message of a missing-attribute Finding. -/
def missingMsg (tag attr : Str) : Str :=
  "<".toList ++ tag ++ "> missing attribute: ".toList ++ attr

/-- Message of a leading-or-trailing-spaces Finding. -/
def spacesMsg (tag attr : Str) : Str :=
  "<".toList ++ tag ++ "> attribute \"".toList ++ attr ++
    "\" has leading or trailing spaces.".toList

/-- Message of a malformed-entity Finding. -/
def invalidMsg (tag attr : Str) : Str :=
  "<".toList ++ tag ++ "> attribute \"".toList ++ attr ++
    "\" contains invalid characters like \"&quote\".".toList

/-- The body of the source's `attributes.forEach` callback: the Findings
pushed for one required attribute of one element. -/
def checkAttr (tag snippet : Str) (line : Int) (e : Element) (attr : Str) :
    List ValidationError :=
  match e.getAttribute attr with
  | none => [⟨tag, snippet, missingMsg tag attr, line⟩]
  | some v =>
    if v = [] then [⟨tag, snippet, missingMsg tag attr, line⟩]
    else
      (if v ≠ jsTrim v then [⟨tag, snippet, spacesMsg tag attr, line⟩] else []) ++
      (if strIncludes quoteEnt v then [⟨tag, snippet, invalidMsg tag attr, line⟩] else [])

/-- All Findings the validator pushes for one element: snippet and line are
computed once, then the three required attributes are checked in order. -/
def elementFindings (lines : List Str) (tag : Str) (e : Element) :
    List ValidationError :=
  requiredAttrs.flatMap
    (checkAttr tag e.outerHTML (resolveLine lines (firstLineOf e.outerHTML)) e)

/-- The source's `validateSVG`, with the browser parser abstracted as
`parse`.  On a parse error the run yields the single synthetic Finding of
the catch block; otherwise it scans the tracked tag kinds in their fixed
order, the matching elements in document order within each kind. -/
def validateSVG (parse : Str → Except Str XMLDoc) (svg : Str) :
    List ValidationError :=
  match parse (fixQuote svg) with
  | .error errText =>
      [⟨"N/A".toList, [], "Invalid SVG syntax: ".toList ++ errText, 0⟩]
  | .ok doc =>
      graphicTags.flatMap (fun tag =>
        (doc.getElementsByTagName tag).flatMap (fun e =>
          elementFindings (splitLines svg) tag e))

/-- Modelled from the spec words of claim C1: the Findings as an ordered
list whose insertion order is the document order of the offending
elements (tracked kinds only), required-attribute checks in their fixed
order within each element. -/
def findingsDocOrder (lines : List Str) (doc : XMLDoc) : List ValidationError :=
  doc.elems.flatMap (fun p =>
    if p.1 ∈ graphicTags then elementFindings lines p.1 p.2 else [])

/-- Modelled from the amended claim C1: findings grouped by tag kind in the
fixed `graphicTags` order, document order within each kind, the three
required-attribute checks in their fixed order within each element. -/
def findingsByTagKind (lines : List Str) (doc : XMLDoc) : List ValidationError :=
  graphicTags.flatMap (fun tag =>
    (doc.elems.filterMap (fun p => if p.1 = tag then some p.2 else none)).flatMap
      (elementFindings lines tag))

-- Concrete documents and parser stubs used by witnesses and counterexamples.

/-- A bare `<rect/>` element with no attributes. -/
def rectElem : Element := ⟨[], "<rect/>".toList⟩

/-- The document the browser produces for `<rect/>`. -/
def rectDoc : XMLDoc := ⟨[("rect".toList, rectElem)]⟩

/-- Parser stub standing for the browser on the input `<rect/>`. -/
def rectParse : Str → Except Str XMLDoc := fun _ => .ok rectDoc

/-- A `<rect>` whose `data-categoryid` value has surrounding spaces. -/
def spacedRectElem : Element :=
  ⟨[("data-categoryid".toList, " 1 ".toList),
    ("data-targetviewbox".toList, "a".toList),
    ("data-zoneid".toList, "b".toList)],
   "<rect data-categoryid=\" 1 \" data-targetviewbox=\"a\" data-zoneid=\"b\"/>".toList⟩

/-- Source text of the whitespace example. -/
def spacedRectSrc : Str :=
  "<rect data-categoryid=\" 1 \" data-targetviewbox=\"a\" data-zoneid=\"b\"/>".toList

/-- The document the browser produces for the whitespace example. -/
def spacedRectDoc : XMLDoc := ⟨[("rect".toList, spacedRectElem)]⟩

/-- Parser stub standing for the browser on the whitespace example. -/
def spacedRectParse : Str → Except Str XMLDoc := fun _ => .ok spacedRectDoc

/-- A `<rect>` whose `data-categoryid` value decoded to text holding `&quote`
(as `&amp;quote` in the source does). -/
def quoteRectElem : Element :=
  ⟨[("data-categoryid".toList, "a&quoteb".toList),
    ("data-targetviewbox".toList, "a".toList),
    ("data-zoneid".toList, "b".toList)],
   "<rect data-categoryid=\"a&amp;quoteb\" data-targetviewbox=\"a\" data-zoneid=\"b\"/>".toList⟩

/-- Source text of the malformed-entity example. -/
def quoteRectSrc : Str :=
  "<rect data-categoryid=\"a&amp;quoteb\" data-targetviewbox=\"a\" data-zoneid=\"b\"/>".toList

/-- The document the browser produces for the malformed-entity example. -/
def quoteRectDoc : XMLDoc := ⟨[("rect".toList, quoteRectElem)]⟩

/-- Parser stub standing for the browser on the malformed-entity example. -/
def quoteRectParse : Str → Except Str XMLDoc := fun _ => .ok quoteRectDoc

/-- Parser stub standing for the browser on a malformed input such as an
unclosed tag: it reports a syntax error. -/
def errParse : Str → Except Str XMLDoc := fun _ => .error "unclosed tag".toList

/-- A document holding a `<rect/>` before a `<path/>`, as parsed from
`<svg><rect/><path/></svg>`. -/
def rectPathDoc : XMLDoc :=
  ⟨[("svg".toList, ⟨[], "<svg><rect/><path/></svg>".toList⟩),
    ("rect".toList, ⟨[], "<rect/>".toList⟩),
    ("path".toList, ⟨[], "<path/>".toList⟩)]⟩

/-- Source text of the ordering example. -/
def rectPathSrc : Str := "<svg><rect/><path/></svg>".toList

/-- Parser stub standing for the browser on the ordering example. -/
def rectPathParse : Str → Except Str XMLDoc := fun _ => .ok rectPathDoc

/-- A document with no element of a tracked graphic kind. -/
def svgOnlyDoc : XMLDoc := ⟨[("svg".toList, ⟨[], "<svg></svg>".toList⟩)]⟩

/-- Parser stub standing for the browser on `<svg></svg>`. -/
def svgOnlyParse : Str → Except Str XMLDoc := fun _ => .ok svgOnlyDoc

/-- A `<rect>` whose three required attributes are all well-formed. -/
def goodRectElem : Element :=
  ⟨[("data-categoryid".toList, "1".toList),
    ("data-targetviewbox".toList, "a".toList),
    ("data-zoneid".toList, "b".toList)],
   "<rect data-categoryid=\"1\" data-targetviewbox=\"a\" data-zoneid=\"b\"/>".toList⟩

-- Basic facts about Boolean prefix tests and substring containment.

theorem ipo_iff_append : ∀ (p s : Str), p.isPrefixOf s = true ↔ ∃ t, s = p ++ t
  | [], s => by simp [List.isPrefixOf]
  | c :: p, [] => by simp [List.isPrefixOf]
  | c :: p, d :: s => by
    show ((c == d) && p.isPrefixOf s) = true ↔ _
    rw [Bool.and_eq_true, beq_iff_eq, ipo_iff_append p s]
    constructor
    · rintro ⟨rfl, t, rfl⟩
      exact ⟨t, rfl⟩
    · rintro ⟨t, ht⟩
      rw [List.cons_append] at ht
      injection ht with h1 h2
      exact ⟨h1.symm, t, h2⟩

theorem strIncludes_iff : ∀ (p s : Str), strIncludes p s = true ↔ ∃ u t, s = u ++ p ++ t
  | p, [] => by
    simp only [strIncludes]
    constructor
    · intro h
      exact ⟨[], [], by simp [List.isEmpty_iff.mp h]⟩
    · rintro ⟨u, t, h⟩
      have hu := List.append_eq_nil.mp h.symm
      have hp := List.append_eq_nil.mp hu.1
      simp [hp.2]
  | p, c :: s => by
    simp only [strIncludes]
    rw [Bool.or_eq_true, ipo_iff_append, strIncludes_iff p s]
    constructor
    · rintro (⟨t, ht⟩ | ⟨u, t, ht⟩)
      · exact ⟨[], t, by simpa using ht⟩
      · exact ⟨c :: u, t, by simp [ht]⟩
    · rintro ⟨u, t, ht⟩
      cases u with
      | nil => exact Or.inl ⟨t, by simpa using ht⟩
      | cons c2 u2 =>
        right
        rw [List.cons_append, List.cons_append] at ht
        injection ht with h1 h2
        exact ⟨u2, t, h2⟩

theorem ne_nil_of_strIncludes_quoteEnt {v : Str}
    (h : strIncludes quoteEnt v = true) : v ≠ [] := by
  intro h0
  subst h0
  simp [strIncludes, quoteEnt] at h

theorem ne_nil_of_ne_jsTrim {v : Str} (h : v ≠ jsTrim v) : v ≠ [] := by
  intro h0
  subst h0
  exact h rfl

-- Facts about the per-attribute check.

theorem checkAttr_missing_mem {tag snippet : Str} {line : Int} {e : Element}
    {attr : Str}
    (h : e.getAttribute attr = none ∨ e.getAttribute attr = some []) :
    (⟨tag, snippet, missingMsg tag attr, line⟩ : ValidationError) ∈
      checkAttr tag snippet line e attr := by
  rcases h with h | h <;> simp [checkAttr, h]

theorem checkAttr_spaces_mem {tag snippet : Str} {line : Int} {e : Element}
    {attr v : Str}
    (hv : e.getAttribute attr = some v) (hne : v ≠ jsTrim v) :
    (⟨tag, snippet, spacesMsg tag attr, line⟩ : ValidationError) ∈
      checkAttr tag snippet line e attr := by
  have h0 : ¬ v = [] := ne_nil_of_ne_jsTrim hne
  simp [checkAttr, hv, h0, hne]

theorem checkAttr_invalid_mem {tag snippet : Str} {line : Int} {e : Element}
    {attr v : Str}
    (hv : e.getAttribute attr = some v) (hq : strIncludes quoteEnt v = true) :
    (⟨tag, snippet, invalidMsg tag attr, line⟩ : ValidationError) ∈
      checkAttr tag snippet line e attr := by
  have h0 : ¬ v = [] := ne_nil_of_strIncludes_quoteEnt hq
  simp [checkAttr, hv, h0, hq]

theorem checkAttr_clean {tag snippet : Str} {line : Int} {e : Element}
    {attr v : Str}
    (hv : e.getAttribute attr = some v) (h0 : v ≠ []) (htr : v = jsTrim v)
    (hq : strIncludes quoteEnt v = false) :
    checkAttr tag snippet line e attr = [] := by
  have h1 : ¬ (v ≠ jsTrim v) := fun h => h htr
  simp [checkAttr, hv, h0, h1, hq]

theorem checkAttr_line_eq {tag snippet : Str} {line : Int} {e : Element}
    {attr : Str} {f : ValidationError}
    (hf : f ∈ checkAttr tag snippet line e attr) : f.line = line := by
  unfold checkAttr at hf
  split at hf
  · simp at hf
    subst hf
    rfl
  · split at hf
    · simp at hf
      subst hf
      rfl
    · rcases List.mem_append.mp hf with h | h <;>
        split at h <;> simp at h <;> (subst h; rfl)

-- Membership of a per-attribute Finding in the full run.

theorem mem_validateSVG_of_checkAttr {parse : Str → Except Str XMLDoc}
    {svg : Str} {doc : XMLDoc} {tag : Str} {e : Element} {attr : Str}
    {f : ValidationError}
    (hp : parse (fixQuote svg) = .ok doc) (ht : tag ∈ graphicTags)
    (he : (tag, e) ∈ doc.elems) (ha : attr ∈ requiredAttrs)
    (hf : f ∈ checkAttr tag e.outerHTML
        (resolveLine (splitLines svg) (firstLineOf e.outerHTML)) e attr) :
    f ∈ validateSVG parse svg := by
  unfold validateSVG
  rw [hp]
  apply List.mem_flatMap.mpr
  refine ⟨tag, ht, ?_⟩
  apply List.mem_flatMap.mpr
  refine ⟨e, ?_, ?_⟩
  · unfold XMLDoc.getElementsByTagName
    exact List.mem_map.mpr ⟨(tag, e), List.mem_filter.mpr ⟨he, by simp⟩, rfl⟩
  · unfold elementFindings
    exact List.mem_flatMap.mpr ⟨attr, ha, hf⟩

-- Facts about the global entity normalization.

theorem fixQuote_cons_pos (c : Char) (rest : Str)
    (h : quoteEnt.isPrefixOf (c :: rest) = true) :
    fixQuote (c :: rest) = '"' :: fixQuote (rest.drop 5) := by
  rw [fixQuote]
  simp [h]

theorem fixQuote_cons_neg (c : Char) (rest : Str)
    (h : ¬ quoteEnt.isPrefixOf (c :: rest) = true) :
    fixQuote (c :: rest) = c :: fixQuote rest := by
  rw [fixQuote]
  simp [h]

theorem fixQuote_nil : fixQuote [] = [] := by
  rw [fixQuote]

theorem ipo_fixQuote (s : Str) :
    ∀ p : Str, p.isPrefixOf (fixQuote s) = true → ('"' ∈ p → False) →
      p.isPrefixOf s = true := by
  induction s using fixQuote.induct with
  | case1 =>
    intro p hp _
    rw [fixQuote_nil] at hp
    cases p with
    | nil => rfl
    | cons a p2 => simp [List.isPrefixOf] at hp
  | case2 c rest h ih =>
    intro p hp hq
    rw [fixQuote_cons_pos c rest h] at hp
    cases p with
    | nil => simp [List.isPrefixOf]
    | cons a p2 =>
      simp only [List.isPrefixOf, Bool.and_eq_true, beq_iff_eq] at hp
      exact absurd (by simp [hp.1]) hq
  | case3 c rest h ih =>
    intro p hp hq
    rw [fixQuote_cons_neg c rest h] at hp
    cases p with
    | nil => simp [List.isPrefixOf]
    | cons a p2 =>
      simp only [List.isPrefixOf, Bool.and_eq_true, beq_iff_eq] at hp
      have h2 := ih p2 hp.2 (fun hm => hq (List.mem_cons_of_mem a hm))
      simp [List.isPrefixOf, hp.1, h2]

theorem fixQuote_no_qe (s : Str) : strIncludes quoteEnt (fixQuote s) = false := by
  induction s using fixQuote.induct with
  | case1 =>
    rw [fixQuote_nil]
    rfl
  | case2 c rest h ih =>
    rw [fixQuote_cons_pos c rest h]
    simp only [strIncludes, Bool.or_eq_false_iff]
    refine ⟨?_, ih⟩
    simp [quoteEnt, List.isPrefixOf]
  | case3 c rest h ih =>
    rw [fixQuote_cons_neg c rest h]
    simp only [strIncludes, Bool.or_eq_false_iff]
    refine ⟨?_, ih⟩
    by_contra hb
    have hb2 : quoteEnt.isPrefixOf (c :: fixQuote rest) = true := by
      revert hb
      cases quoteEnt.isPrefixOf (c :: fixQuote rest) <;> simp
    simp only [quoteEnt, List.isPrefixOf, Bool.and_eq_true, beq_iff_eq] at hb2
    have h5 : (['q', 'u', 'o', 't', 'e'] : Str).isPrefixOf rest = true := by
      apply ipo_fixQuote rest ['q', 'u', 'o', 't', 'e'] _ (by decide)
      simp [List.isPrefixOf, hb2]
    apply h
    simp [quoteEnt, List.isPrefixOf, ← hb2.1]
    simpa [List.isPrefixOf] using h5

theorem strIncludes_of_strIncludes {p v w : Str}
    (hvw : strIncludes v w = true) (hpv : strIncludes p v = true) :
    strIncludes p w = true := by
  rcases (strIncludes_iff v w).mp hvw with ⟨u1, t1, rfl⟩
  rcases (strIncludes_iff p v).mp hpv with ⟨u2, t2, rfl⟩
  apply (strIncludes_iff p _).mpr
  exact ⟨u1 ++ u2, t2 ++ t1, by simp⟩

-- Reduction of a run on a successful or failed parse.

theorem validateSVG_ok {parse : Str → Except Str XMLDoc} {svg : Str}
    {doc : XMLDoc} (hp : parse (fixQuote svg) = .ok doc) :
    validateSVG parse svg = graphicTags.flatMap (fun tag =>
      (doc.getElementsByTagName tag).flatMap (fun e =>
        elementFindings (splitLines svg) tag e)) := by
  unfold validateSVG
  rw [hp]

theorem validateSVG_err {parse : Str → Except Str XMLDoc} {svg : Str}
    {err : Str} (hp : parse (fixQuote svg) = .error err) :
    validateSVG parse svg =
      [⟨"N/A".toList, [], "Invalid SVG syntax: ".toList ++ err, 0⟩] := by
  unfold validateSVG
  rw [hp]

-- Facts about line resolution.

theorem jsFindIndex_eq_neg_one {α : Type} {p : α → Bool} : ∀ {l : List α},
    (∀ x ∈ l, p x = false) → jsFindIndex p l = -1
  | [], _ => rfl
  | a :: rest, h => by
    have ha : p a = false := h a (List.mem_cons_self a rest)
    have hr : jsFindIndex p rest = -1 :=
      jsFindIndex_eq_neg_one (fun x hx => h x (List.mem_cons_of_mem a hx))
    simp [jsFindIndex, ha, hr]

theorem jsFindIndex_eq_of_unique {α : Type} {p : α → Bool} :
    ∀ (l : List α) (k : Nat) (hk : k < l.length),
      p (l.get ⟨k, hk⟩) = true →
      (∀ (j : Nat) (hj : j < l.length), p (l.get ⟨j, hj⟩) = true → j = k) →
      jsFindIndex p l = k
  | [], k, hk => by simp at hk
  | a :: rest, 0, hk => fun hp _ => by
    have hpa : p a = true := hp
    simp [jsFindIndex, hpa]
  | a :: rest, k + 1, hk => fun hp hu => by
    have ha : p a = false := by
      by_contra hb
      have hb2 : p a = true := by
        revert hb
        cases p a <;> simp
      have h0 := hu 0 (Nat.succ_pos _) hb2
      omega
    have hk2 : k < rest.length := by
      simp at hk
      omega
    have hr : jsFindIndex p rest = k := by
      apply jsFindIndex_eq_of_unique rest k hk2
      · exact hp
      · intro j hj hpj
        have := hu (j + 1) (Nat.succ_lt_succ hj) hpj
        omega
    have hne : (k : Int) ≠ -1 := by omega
    simp [jsFindIndex, ha, hr, hne]

theorem resolveLine_of_unique (lines : List Str) (fl : Str) (k : Nat)
    (hk : k < lines.length)
    (hmatch : strIncludes fl (lines.get ⟨k, hk⟩) = true)
    (huniq : ∀ (j : Nat) (hj : j < lines.length),
      strIncludes fl (lines.get ⟨j, hj⟩) = true → j = k) :
    resolveLine lines fl = k + 1 := by
  unfold resolveLine
  rw [jsFindIndex_eq_of_unique lines k hk hmatch huniq]

theorem resolveLine_of_none (lines : List Str) (fl : Str)
    (h : ∀ l ∈ lines, strIncludes fl l = false) :
    resolveLine lines fl = 0 := by
  unfold resolveLine
  rw [jsFindIndex_eq_neg_one h]
  decide

-- Facts about the per-element Findings.

theorem elementFindings_line_eq {lines : List Str} {tag : Str} {e : Element}
    {f : ValidationError} (hf : f ∈ elementFindings lines tag e) :
    f.line = resolveLine lines (firstLineOf e.outerHTML) := by
  unfold elementFindings at hf
  rcases List.mem_flatMap.mp hf with ⟨attr, _, hfa⟩
  exact checkAttr_line_eq hfa

theorem elementFindings_clean {lines : List Str} {tag : Str} {e : Element}
    (h : ∀ attr ∈ requiredAttrs, ∃ v, e.getAttribute attr = some v ∧ v ≠ [] ∧
      v = jsTrim v ∧ strIncludes quoteEnt v = false) :
    elementFindings lines tag e = [] := by
  obtain ⟨v1, hv1, hn1, ht1, hq1⟩ :=
    h ("data-categoryid".toList) (by simp [requiredAttrs])
  obtain ⟨v2, hv2, hn2, ht2, hq2⟩ :=
    h ("data-targetviewbox".toList) (by simp [requiredAttrs])
  obtain ⟨v3, hv3, hn3, ht3, hq3⟩ :=
    h ("data-zoneid".toList) (by simp [requiredAttrs])
  unfold elementFindings requiredAttrs
  rw [List.flatMap_cons, List.flatMap_cons, List.flatMap_cons, List.flatMap_nil]
  rw [checkAttr_clean hv1 hn1 ht1 hq1, checkAttr_clean hv2 hn2 ht2 hq2,
    checkAttr_clean hv3 hn3 ht3 hq3]
  rfl

-- `getElementsByTagName` written as a `filterMap`.

theorem getElementsByTagName_eq_filterMap (doc : XMLDoc) (tag : Str) :
    doc.getElementsByTagName tag =
      doc.elems.filterMap (fun p => if p.1 = tag then some p.2 else none) := by
  obtain ⟨l⟩ := doc
  unfold XMLDoc.getElementsByTagName
  simp only []
  induction l with
  | nil => rfl
  | cons p l ih =>
    by_cases h : p.1 = tag <;>
      simp [List.filter_cons, List.filterMap_cons, h, ih]

-- Claim theorems.

/-- Claim C1, counterexample: the claim that Findings are inserted in the
document order of the offending elements fails on the document parsed from
`<svg><rect/><path/></svg>`: the run lists the `<path/>` Findings before
the `<rect/>` Findings although `<rect/>` comes first in document order. -/
theorem validateSVG_not_docOrder_cex :
    rectPathParse (fixQuote rectPathSrc) = .ok rectPathDoc ∧
    validateSVG rectPathParse rectPathSrc ≠
      findingsDocOrder (splitLines rectPathSrc) rectPathDoc :=
  ⟨rfl, by decide⟩

/-- Claim C1 (amended): for every input text that parses successfully, the
Findings are ordered by tag kind in the fixed `graphicTags` order, then by
document order of the elements within each kind, with the three
required-attribute checks applied in their fixed order within each
element. -/
theorem validateSVG_tagGrouped_order (parse : Str → Except Str XMLDoc)
    (svg : Str) (doc : XMLDoc) (hp : parse (fixQuote svg) = .ok doc) :
    validateSVG parse svg = findingsByTagKind (splitLines svg) doc := by
  rw [validateSVG_ok hp]
  unfold findingsByTagKind
  simp only [getElementsByTagName_eq_filterMap]

/-- Witness for the amended claim C1 at the ordering example. -/
theorem validateSVG_tagGrouped_order_witness :
    rectPathParse (fixQuote rectPathSrc) = .ok rectPathDoc ∧
    validateSVG rectPathParse rectPathSrc =
      findingsByTagKind (splitLines rectPathSrc) rectPathDoc :=
  ⟨rfl, validateSVG_tagGrouped_order rectPathParse rectPathSrc rectPathDoc rfl⟩

/-- Claim C2: a tracked graphic element with a required attribute whose
parsed value holds the literal text `&quote` yields the dedicated
malformed-entity Finding, independently of the trim check. -/
theorem validateSVG_quoteEntity_finding (parse : Str → Except Str XMLDoc)
    (svg : Str) (doc : XMLDoc) (tag : Str) (e : Element) (attr v : Str)
    (hp : parse (fixQuote svg) = .ok doc) (ht : tag ∈ graphicTags)
    (he : (tag, e) ∈ doc.elems) (ha : attr ∈ requiredAttrs)
    (hv : e.getAttribute attr = some v)
    (hq : strIncludes quoteEnt v = true) :
    (⟨tag, e.outerHTML, invalidMsg tag attr,
      resolveLine (splitLines svg) (firstLineOf e.outerHTML)⟩ :
        ValidationError) ∈ validateSVG parse svg :=
  mem_validateSVG_of_checkAttr hp ht he ha (checkAttr_invalid_mem hv hq)

/-- Witness for claim C2 at the malformed-entity example. -/
theorem validateSVG_quoteEntity_finding_witness :
    (quoteRectParse (fixQuote quoteRectSrc) = .ok quoteRectDoc ∧
      quoteRectElem.getAttribute "data-categoryid".toList =
        some "a&quoteb".toList ∧
      strIncludes quoteEnt "a&quoteb".toList = true) ∧
    (⟨"rect".toList, quoteRectElem.outerHTML,
      invalidMsg "rect".toList "data-categoryid".toList,
      resolveLine (splitLines quoteRectSrc)
        (firstLineOf quoteRectElem.outerHTML)⟩ :
        ValidationError) ∈ validateSVG quoteRectParse quoteRectSrc :=
  ⟨⟨rfl, by decide, by decide⟩,
    validateSVG_quoteEntity_finding quoteRectParse quoteRectSrc quoteRectDoc
      ("rect".toList) quoteRectElem ("data-categoryid".toList)
      ("a&quoteb".toList) rfl (by decide) (by decide) (by decide) (by decide)
      (by decide)⟩

/-- Claim C3: when the parser reports a syntax error, the run is exactly
one synthetic Finding carrying the parser's error text, with tag `N/A`,
empty snippet and line 0. -/
theorem validateSVG_parseError_single (parse : Str → Except Str XMLDoc)
    (svg err : Str) (hp : parse (fixQuote svg) = .error err) :
    validateSVG parse svg =
      [⟨"N/A".toList, [], "Invalid SVG syntax: ".toList ++ err, 0⟩] :=
  validateSVG_err hp

/-- Witness for claim C3 at an unclosed-tag example. -/
theorem validateSVG_parseError_single_witness :
    errParse (fixQuote "<rect".toList) = .error "unclosed tag".toList ∧
    validateSVG errParse "<rect".toList =
      [⟨"N/A".toList, [],
        "Invalid SVG syntax: ".toList ++ "unclosed tag".toList, 0⟩] :=
  ⟨rfl,
    validateSVG_parseError_single errParse "<rect".toList "unclosed tag".toList rfl⟩

/-- Claim C4: an absent or empty required attribute of a tracked element
yields the Finding `<tag> missing attribute: <attr>`; and the input
`<rect/>` yields exactly three missing-attribute Findings, one per
required attribute, in their fixed order. -/
theorem validateSVG_missing_attr :
    (∀ (parse : Str → Except Str XMLDoc) (svg : Str) (doc : XMLDoc)
      (tag : Str) (e : Element) (attr : Str),
      parse (fixQuote svg) = .ok doc → tag ∈ graphicTags →
      (tag, e) ∈ doc.elems → attr ∈ requiredAttrs →
      (e.getAttribute attr = none ∨ e.getAttribute attr = some []) →
      (⟨tag, e.outerHTML, missingMsg tag attr,
        resolveLine (splitLines svg) (firstLineOf e.outerHTML)⟩ :
          ValidationError) ∈ validateSVG parse svg) ∧
    validateSVG rectParse ("<rect/>".toList) =
      [⟨"rect".toList, "<rect/>".toList,
        missingMsg "rect".toList "data-categoryid".toList, 1⟩,
       ⟨"rect".toList, "<rect/>".toList,
        missingMsg "rect".toList "data-targetviewbox".toList, 1⟩,
       ⟨"rect".toList, "<rect/>".toList,
        missingMsg "rect".toList "data-zoneid".toList, 1⟩] := by
  constructor
  · intro parse svg doc tag e attr hp ht he ha hv
    exact mem_validateSVG_of_checkAttr hp ht he ha (checkAttr_missing_mem hv)
  · decide

/-- Witness for claim C4 at the bare `<rect/>` example. -/
theorem validateSVG_missing_attr_witness :
    (rectParse (fixQuote "<rect/>".toList) = .ok rectDoc ∧
      rectElem.getAttribute "data-categoryid".toList = none) ∧
    (⟨"rect".toList, rectElem.outerHTML,
      missingMsg "rect".toList "data-categoryid".toList,
      resolveLine (splitLines "<rect/>".toList)
        (firstLineOf rectElem.outerHTML)⟩ :
        ValidationError) ∈ validateSVG rectParse "<rect/>".toList :=
  ⟨⟨rfl, by decide⟩,
    validateSVG_missing_attr.1 _ _ _ _ _ _ rfl (by decide) (by decide)
      (by decide) (Or.inl (by decide))⟩

/-- Claim C5: a required attribute whose value differs from its trimmed
form yields the spacing Finding; and the whitespace example yields exactly
one Finding, for `data-categoryid` only. -/
theorem validateSVG_untrimmed_attr :
    (∀ (parse : Str → Except Str XMLDoc) (svg : Str) (doc : XMLDoc)
      (tag : Str) (e : Element) (attr v : Str),
      parse (fixQuote svg) = .ok doc → tag ∈ graphicTags →
      (tag, e) ∈ doc.elems → attr ∈ requiredAttrs →
      e.getAttribute attr = some v → v ≠ jsTrim v →
      (⟨tag, e.outerHTML, spacesMsg tag attr,
        resolveLine (splitLines svg) (firstLineOf e.outerHTML)⟩ :
          ValidationError) ∈ validateSVG parse svg) ∧
    validateSVG spacedRectParse spacedRectSrc =
      [⟨"rect".toList, spacedRectElem.outerHTML,
        spacesMsg "rect".toList "data-categoryid".toList, 1⟩] := by
  constructor
  · intro parse svg doc tag e attr v hp ht he ha hv hne
    exact mem_validateSVG_of_checkAttr hp ht he ha (checkAttr_spaces_mem hv hne)
  · decide

/-- Witness for claim C5 at the whitespace example. -/
theorem validateSVG_untrimmed_attr_witness :
    (spacedRectParse (fixQuote spacedRectSrc) = .ok spacedRectDoc ∧
      spacedRectElem.getAttribute "data-categoryid".toList =
        some " 1 ".toList ∧
      " 1 ".toList ≠ jsTrim " 1 ".toList) ∧
    (⟨"rect".toList, spacedRectElem.outerHTML,
      spacesMsg "rect".toList "data-categoryid".toList,
      resolveLine (splitLines spacedRectSrc)
        (firstLineOf spacedRectElem.outerHTML)⟩ :
        ValidationError) ∈ validateSVG spacedRectParse spacedRectSrc :=
  ⟨⟨rfl, by decide, by decide⟩,
    validateSVG_untrimmed_attr.1 spacedRectParse spacedRectSrc spacedRectDoc
      ("rect".toList) spacedRectElem ("data-categoryid".toList)
      (" 1 ".toList) rfl (by decide) (by decide) (by decide) (by decide)
      (by decide)⟩

/-- Claim C6: a document with no element of a tracked graphic kind yields
an empty Finding list. -/
theorem validateSVG_no_tracked_nil (parse : Str → Except Str XMLDoc)
    (svg : Str) (doc : XMLDoc) (hp : parse (fixQuote svg) = .ok doc)
    (h : ∀ pr ∈ doc.elems, pr.1 ∉ graphicTags) :
    validateSVG parse svg = [] := by
  rw [validateSVG_ok hp]
  apply List.eq_nil_iff_forall_not_mem.mpr
  intro f hf
  rcases List.mem_flatMap.mp hf with ⟨tag, htag, hf2⟩
  rcases List.mem_flatMap.mp hf2 with ⟨e, he, _⟩
  unfold XMLDoc.getElementsByTagName at he
  rcases List.mem_map.mp he with ⟨pr, hpmem, rfl⟩
  have hmem := List.mem_filter.mp hpmem
  have hpt : pr.1 = tag := of_decide_eq_true hmem.2
  exact h pr hmem.1 (by rw [hpt]; exact htag)

/-- Witness for claim C6 at `<svg></svg>`. -/
theorem validateSVG_no_tracked_nil_witness :
    svgOnlyParse (fixQuote "<svg></svg>".toList) = .ok svgOnlyDoc ∧
    validateSVG svgOnlyParse "<svg></svg>".toList = [] :=
  ⟨rfl, validateSVG_no_tracked_nil _ _ _ rfl (by decide)⟩

/-- Claim C7: an element whose three required attributes are all present,
non-empty, trim-stable and free of `&quote` contributes zero Findings;
consequently a document all of whose elements are such yields an empty
Finding list. -/
theorem validateSVG_clean_element :
    (∀ (lines : List Str) (tag : Str) (e : Element),
      (∀ attr ∈ requiredAttrs, ∃ v, e.getAttribute attr = some v ∧ v ≠ [] ∧
        v = jsTrim v ∧ strIncludes quoteEnt v = false) →
      elementFindings lines tag e = []) ∧
    (∀ (parse : Str → Except Str XMLDoc) (svg : Str) (doc : XMLDoc),
      parse (fixQuote svg) = .ok doc →
      (∀ pr ∈ doc.elems, ∀ attr ∈ requiredAttrs, ∃ v,
        pr.2.getAttribute attr = some v ∧ v ≠ [] ∧ v = jsTrim v ∧
        strIncludes quoteEnt v = false) →
      validateSVG parse svg = []) := by
  constructor
  · intro lines tag e h
    exact elementFindings_clean h
  · intro parse svg doc hp h
    rw [validateSVG_ok hp]
    apply List.eq_nil_iff_forall_not_mem.mpr
    intro f hf
    rcases List.mem_flatMap.mp hf with ⟨tag, htag, hf2⟩
    rcases List.mem_flatMap.mp hf2 with ⟨e, he, hfe⟩
    unfold XMLDoc.getElementsByTagName at he
    rcases List.mem_map.mp he with ⟨pr, hpmem, rfl⟩
    have hmem := List.mem_filter.mp hpmem
    rw [elementFindings_clean (h pr hmem.1)] at hfe
    simp at hfe

/-- Witness for claim C7 at a fully well-formed `<rect>`. -/
theorem validateSVG_clean_element_witness :
    (∀ attr ∈ requiredAttrs, ∃ v, goodRectElem.getAttribute attr = some v ∧
      v ≠ [] ∧ v = jsTrim v ∧ strIncludes quoteEnt v = false) ∧
    elementFindings [[]] ("rect".toList) goodRectElem = [] := by
  have h : ∀ attr ∈ requiredAttrs, ∃ v, goodRectElem.getAttribute attr = some v ∧
      v ≠ [] ∧ v = jsTrim v ∧ strIncludes quoteEnt v = false := by
    intro attr ha
    unfold requiredAttrs at ha
    rcases List.mem_cons.mp ha with rfl | ha
    · exact ⟨"1".toList, by decide, by decide, by decide, by decide⟩
    rcases List.mem_cons.mp ha with rfl | ha
    · exact ⟨"a".toList, by decide, by decide, by decide, by decide⟩
    rcases List.mem_cons.mp ha with rfl | ha
    · exact ⟨"b".toList, by decide, by decide, by decide, by decide⟩
    exact absurd ha (List.not_mem_nil attr)
  exact ⟨h, validateSVG_clean_element.1 [[]] ("rect".toList) goodRectElem h⟩

/-- Claim C8: validation is deterministic — the run is a pure function of
the text, so validating the same text twice yields identical Finding
lists. -/
theorem validateSVG_deterministic (parse : Str → Except Str XMLDoc)
    (svg : Str) : validateSVG parse svg = validateSVG parse svg := rfl

/-- Claim C9: when exactly one source line holds the first line of the
offending element's serialized markup, the reported line is that line's
1-based position; when no line holds it, the reported line is 0; and every
Finding of an element carries that element's resolved line. -/
theorem finding_line_resolution :
    (∀ (lines : List Str) (fl : Str) (k : Nat) (hk : k < lines.length),
      strIncludes fl (lines.get ⟨k, hk⟩) = true →
      (∀ (j : Nat) (hj : j < lines.length),
        strIncludes fl (lines.get ⟨j, hj⟩) = true → j = k) →
      resolveLine lines fl = k + 1) ∧
    (∀ (lines : List Str) (fl : Str),
      (∀ l ∈ lines, strIncludes fl l = false) → resolveLine lines fl = 0) ∧
    (∀ (lines : List Str) (tag : Str) (e : Element) (f : ValidationError),
      f ∈ elementFindings lines tag e →
      f.line = resolveLine lines (firstLineOf e.outerHTML)) :=
  ⟨resolveLine_of_unique, resolveLine_of_none,
    fun _ _ _ _ hf => elementFindings_line_eq hf⟩

/-- Witness for claim C9 at two concrete line lists. -/
theorem finding_line_resolution_witness :
    resolveLine ["<svg>".toList, "<path/>".toList] ("<path/>".toList) =
      (1 : Nat) + 1 ∧
    resolveLine ["<svg>".toList] ("<rect/>".toList) = 0 :=
  ⟨finding_line_resolution.1 _ _ 1 (by decide) (by decide) (by decide),
   finding_line_resolution.2.1 _ _ (by decide)⟩

/-- Claim C10: the text handed to the parser never holds the substring
`&quote` — the global normalization removed every literal occurrence — so
a parsed attribute value taken verbatim from that text is `&quote`-free:
the malformed-entity check can fire only for values produced by entity
decoding, never from a literal `&quote` in the source. -/
theorem fixQuote_no_quoteEntity :
    (∀ svg : Str, strIncludes quoteEnt (fixQuote svg) = false) ∧
    (∀ svg v : Str, strIncludes v (fixQuote svg) = true →
      strIncludes quoteEnt v = false) := by
  refine ⟨fixQuote_no_qe, ?_⟩
  intro svg v hv
  by_contra hb
  have hb2 : strIncludes quoteEnt v = true := by
    revert hb
    cases strIncludes quoteEnt v <;> simp
  have hw := strIncludes_of_strIncludes hv hb2
  rw [fixQuote_no_qe svg] at hw
  exact absurd hw (by decide)

/-- Witness for claim C10 at a one-character text. -/
theorem fixQuote_no_quoteEntity_witness :
    strIncludes ['a'] (fixQuote ['a']) = true ∧
    strIncludes quoteEnt ['a'] = false := by
  have h1 : fixQuote ['a'] = ['a'] := by
    rw [fixQuote_cons_neg 'a' [] (by decide), fixQuote_nil]
  constructor
  · rw [h1]
    decide
  · exact fixQuote_no_quoteEntity.2 ['a'] ['a'] (by rw [h1]; decide)
